import Mathlib

/-!
Verification development for the reversible column-encoding pipeline of
`tgan/data.py` (TGAN data preparation).

The Python source is embedded shallowly:

* numeric cell values become `ℚ` (the claims under study are about formula
  structure and exact clipping/lookup behaviour, not float rounding);
* the `sklearn` Gaussian-mixture model is an external collaborator: its
  fitted output (means, stds, per-row responsibility matrix) is a parameter
  of the embedding (`GmmFit`), and `predict_proba` is modelled from the
  spec where a claim is about its output;
* Python exceptions (`KeyError`, `ValueError`, `TypeError`,
  `UnboundLocalError`) become `Except String`;
* the transformed-table `dict` keyed by `f%02d % i` becomes an
  association list keyed by the column index `i`.
-/

/-- Maximum of a list of rationals, as used by `np.argmax` reasoning; `0` on
the empty list (numpy raises there, callers guard non-emptiness). -/
def npMax : List ℚ → ℚ
  | [] => 0
  | [x] => x
  | x :: y :: xs => max x (npMax (y :: xs))

/-- Index of the first maximal element of a list, the semantics of
`np.argmax` on a 1-d array (`0` on the empty list, where numpy raises). -/
def npArgmax : List ℚ → Nat
  | [] => 0
  | [_] => 0
  | x :: y :: xs => if x < npMax (y :: xs) then npArgmax (y :: xs) + 1 else 0

/-- Semantics of `np.clip(x, lo, hi)`: `hi` bound applied after the `lo`
bound. -/
def npClip (x lo hi : ℚ) : ℚ := min (max x lo) hi

theorem le_npMax_of_mem {l : List ℚ} {y : ℚ} (h : y ∈ l) : y ≤ npMax l := by
  induction l with
  | nil => exact absurd h (List.not_mem_nil _)
  | cons x xs ih =>
    cases xs with
    | nil =>
      rcases List.mem_singleton.mp h with rfl
      exact le_refl _
    | cons z zs =>
      rcases List.mem_cons.mp h with rfl | hmem
      · exact le_max_left _ _
      · exact le_trans (ih hmem) (le_max_right _ _)

theorem npArgmax_lt_length {l : List ℚ} (hne : l ≠ []) :
    npArgmax l < l.length := by
  induction l with
  | nil => exact absurd rfl hne
  | cons x xs ih =>
    cases xs with
    | nil => simp [npArgmax]
    | cons y ys =>
      by_cases hx : x < npMax (y :: ys)
      · simp only [npArgmax, if_pos hx, List.length_cons]
        exact Nat.succ_lt_succ (ih (List.cons_ne_nil _ _))
      · simp [npArgmax, if_neg hx]

theorem getD_npArgmax_eq_npMax {l : List ℚ} (hne : l ≠ []) :
    l.getD (npArgmax l) 0 = npMax l := by
  induction l with
  | nil => exact absurd rfl hne
  | cons x xs ih =>
    cases xs with
    | nil => simp [npArgmax, npMax]
    | cons y ys =>
      by_cases hx : x < npMax (y :: ys)
      · simp only [npArgmax, if_pos hx, npMax, List.getD_cons_succ]
        rw [ih (List.cons_ne_nil _ _)]
        exact (max_eq_right (le_of_lt hx)).symm
      · simp only [npArgmax, if_neg hx, npMax, List.getD_cons_zero]
        exact (max_eq_left (le_of_not_lt hx)).symm

theorem getD_le_getD_npArgmax (l : List ℚ) (i : Nat) (hi : i < l.length) :
    l.getD i 0 ≤ l.getD (npArgmax l) 0 := by
  have hne : l ≠ [] := by
    intro h; rw [h] at hi; exact absurd hi (by simp)
  rw [getD_npArgmax_eq_npMax hne]
  refine le_npMax_of_mem ?_
  rw [List.getD_eq_getElem _ _ hi]
  exact List.getElem_mem hi

/-- Embedding of `CategoricalTransformer.transform`
(`src/tgan/data.py:258-275`): `np.unique` of the input (sorted distinct
canonical strings) becomes the vocabulary, `value_mapping` the dict from a
vocabulary entry to its position, and each input value is encoded as its
index.  Returns `(features, unique_values, n)` as the source does. -/
def CategoricalTransformer.transform (data : List String) :
    List Nat × List String × Nat :=
  let unique_values := List.insertionSort (· ≤ ·) data.dedup
  let features := data.map fun x => unique_values.indexOf x
  (features, unique_values, unique_values.length)

/-- Embedding of the dict lookup `id2str[x]` inside
`CategoricalTransformer.reverse_transform`, where
`id2str = dict(enumerate(mapping))`: a `KeyError` for any integer
outside `[0, len(mapping))`. -/
def id2strLookup (mapping : List String) (x : Int) : Except String String :=
  if h : 0 ≤ x ∧ x.toNat < mapping.length then
    Except.ok (mapping.get ⟨x.toNat, h.2⟩)
  else
    Except.error "KeyError"

/-- Embedding of `CategoricalTransformer.reverse_transform`
(`src/tgan/data.py:277-290`): maps every stored integer index back through
the vocabulary; an index outside the vocabulary raises. -/
def CategoricalTransformer.reverse_transform (data : List Int)
    (mapping : List String) : Except String (List String) :=
  data.mapM (id2strLookup mapping)

theorem mapM_map_ok {β : Type} (g : β → Except String String)
    (f : String → β) (l : List String)
    (h : ∀ x ∈ l, g (f x) = Except.ok x) :
    (l.map f).mapM g = Except.ok l := by
  induction l with
  | nil => rfl
  | cons x xs ih =>
    rw [List.map_cons, List.mapM_cons, h x (List.mem_cons_self _ _),
      ih fun y hy => h y (List.mem_cons_of_mem _ hy)]
    rfl

/-- CLAIM C1: for every column of string values, encoding with
`CategoricalTransformer.transform` and decoding the produced indices with
`CategoricalTransformer.reverse_transform` (using the mapping produced by
`transform`) returns exactly the original sequence of values. -/
theorem categorical_roundtrip (data : List String) :
    CategoricalTransformer.reverse_transform
      ((CategoricalTransformer.transform data).1.map Int.ofNat)
      (CategoricalTransformer.transform data).2.1 = Except.ok data := by
  unfold CategoricalTransformer.reverse_transform CategoricalTransformer.transform
  simp only
  set u := List.insertionSort (· ≤ ·) data.dedup with hu
  rw [List.map_map]
  apply mapM_map_ok
  intro x hx
  have hmemu : x ∈ u := by
    rw [hu, List.mem_insertionSort, List.mem_dedup]
    exact hx
  have hlt : u.indexOf x < u.length := List.indexOf_lt_length.mpr hmemu
  simp only [Function.comp_apply, id2strLookup, Int.toNat_ofNat]
  rw [dif_pos ⟨Int.ofNat_nonneg _, hlt⟩]
  exact congrArg Except.ok (List.indexOf_get hlt)

/-- Fitted output of the external `sklearn.mixture.GaussianMixture` used by
`MultiModalNumberTransformer.transform`: component means, component
standard deviations (`np.sqrt(model.covariances_)`), and the per-row
responsibility matrix returned by `model.predict_proba(data)`. -/
structure GmmResult where
  means : List ℚ
  stds : List ℚ
  probs : List (List ℚ)

/-- The external mixture-fitting collaborator: fed the raw column, it
either fails (non-convergence, degenerate data) or yields the outputs of a fitted model. -/
def GmmFit : Type := List ℚ → Except String GmmResult

/-- Unclipped normalized scalar `(x - means[k]) / (2 * stds[k])`, the entry
the source selects from the broadcast matrix `(data - means) / (2 * stds)`
at row `x` and column `k`. -/
def rawScalar (x : ℚ) (means stds : List ℚ) (k : Nat) : ℚ :=
  (x - means.getD k 0) / (2 * stds.getD k 0)

/-- Per-value core of `MultiModalNumberTransformer.transform`
(`src/tgan/data.py:200-229`): select the normalized scalar at the argmax
responsibility component, then `np.clip(features, -0.99, 0.99)`. -/
def MultiModalNumberTransformer.transformRow (x : ℚ) (means stds probsRow : List ℚ) : ℚ :=
  npClip (rawScalar x means stds (npArgmax probsRow)) (-(99/100)) (99/100)

/-- Embedding of `MultiModalNumberTransformer.transform`
(`src/tgan/data.py:200-229`).  The mixture fit is the external `gmm`
collaborator; the source then normalizes each value against the argmax
component and clips.  Returns `(features, probs, means, stds)` as the
source does. -/
def MultiModalNumberTransformer.transform (gmm : GmmFit) (data : List ℚ) :
    Except String (List ℚ × List (List ℚ) × List ℚ × List ℚ) :=
  match gmm data with
  | Except.error e => Except.error e
  | Except.ok r =>
      Except.ok
        ((data.zip r.probs).map fun p =>
            MultiModalNumberTransformer.transformRow p.1 r.means r.stds p.2,
          r.probs, r.means, r.stds)

/-- Embedding of `MultiModalNumberTransformer.reverse_transform`
(`src/tgan/data.py:231-252`): per row, `features = data[:, 0]`,
`probs = data[:, 1:]`, `p_argmax = np.argmax(probs, axis=1)`, result
`features * 2 * stds[p_argmax] + means[p_argmax]`. -/
def MultiModalNumberTransformer.reverse_transform (rows : List (List ℚ))
    (means stds : List ℚ) : List ℚ :=
  rows.map fun row =>
    let features := row.headD 0
    let probs := row.tail
    let k := npArgmax probs
    features * 2 * stds.getD k 0 + means.getD k 0

theorem npClip_mem (x lo hi : ℚ) (h : lo ≤ hi) :
    lo ≤ npClip x lo hi ∧ npClip x lo hi ≤ hi :=
  ⟨le_min (le_max_right _ _) h, min_le_right _ _⟩

theorem npClip_eq_hi {x lo hi : ℚ} (h : lo ≤ hi) (hx : hi < x) :
    npClip x lo hi = hi := by
  unfold npClip
  rw [max_eq_left (le_of_lt (lt_of_le_of_lt h hx))]
  exact min_eq_right (le_of_lt hx)

theorem npClip_eq_lo {x lo hi : ℚ} (h : lo ≤ hi) (hx : x < lo) :
    npClip x lo hi = lo := by
  unfold npClip
  rw [max_eq_right (le_of_lt hx)]
  exact min_eq_left h

/-- CLAIM C7: every normalized scalar output by
`MultiModalNumberTransformer.transform` lies in `[-0.99, 0.99]`; a value
whose unclipped normalized scalar exceeds `0.99` comes out exactly `0.99`,
and symmetrically below `-0.99`. -/
theorem continuous_transform_clipped (gmm : GmmFit) (data : List ℚ)
    (features : List ℚ) (probs : List (List ℚ)) (means stds : List ℚ)
    (h : MultiModalNumberTransformer.transform gmm data
      = Except.ok (features, probs, means, stds)) :
    (∀ v ∈ features, -(99/100) ≤ v ∧ v ≤ 99/100) ∧
    (∀ x probsRow, 99/100 < rawScalar x means stds (npArgmax probsRow) →
      MultiModalNumberTransformer.transformRow x means stds probsRow = 99/100) ∧
    (∀ x probsRow, rawScalar x means stds (npArgmax probsRow) < -(99/100) →
      MultiModalNumberTransformer.transformRow x means stds probsRow = -(99/100)) := by
  have hb : (-(99/100) : ℚ) ≤ 99/100 := by norm_num
  refine ⟨?_, ?_, ?_⟩
  · intro v hv
    unfold MultiModalNumberTransformer.transform at h
    cases hg : gmm data with
    | error e => rw [hg] at h; exact absurd h (by simp)
    | ok r =>
      rw [hg] at h
      simp only [Except.ok.injEq, Prod.mk.injEq] at h
      obtain ⟨hf, _, hm, hs⟩ := h
      rw [← hf] at hv
      rcases List.mem_map.mp hv with ⟨p, _, hp⟩
      rw [← hp, hm, hs]
      exact npClip_mem _ _ _ hb
  · intro x probsRow hgt
    exact npClip_eq_hi hb hgt
  · intro x probsRow hlt
    exact npClip_eq_lo hb hlt

/-- Witness for C7 at a concrete outlier: means `[0]`, stds `[1/2]`, one
responsibility component; the raw scalar of `x = 100` is `100 > 0.99`, so
the output is exactly `0.99`. -/
theorem continuous_transform_clipped_witness :
    MultiModalNumberTransformer.transformRow 100 [0] [(1/2)] [1] = 99/100 := by
  have hfit : MultiModalNumberTransformer.transform
      (fun _ => Except.ok ⟨[0], [(1/2)], [[1]]⟩) [100]
      = Except.ok ([MultiModalNumberTransformer.transformRow 100 [0] [(1/2)] [1]],
          [[1]], [0], [(1/2)]) := rfl
  refine (continuous_transform_clipped _ [100] _ [[1]] [0] [(1/2)] hfit).2.1 100 [1] ?_
  show (99/100 : ℚ) < (100 - ([(0 : ℚ)].getD (npArgmax [1]) 0)) / (2 * ([(1/2 : ℚ)].getD (npArgmax [1]) 0))
  norm_num [npArgmax]

/-- CLAIM C6: for every encoded row `(scalar, probs)` and metadata means and
stds of matching length, `MultiModalNumberTransformer.reverse_transform`
returns `scalar * 2 * stds[k] + means[k]` at that row, where `k` is the
index of the (first) maximum entry of `probs`: `k` is in range and no entry
of `probs` exceeds `probs[k]`. -/
theorem continuous_reverse_formula (rows : List (List ℚ)) (means stds : List ℚ)
    (i : Nat) (scalar : ℚ) (probs : List ℚ)
    (hrow : rows.get? i = some (scalar :: probs)) (hne : probs ≠ [])
    (hm : probs.length = means.length) (hs : probs.length = stds.length) :
    (MultiModalNumberTransformer.reverse_transform rows means stds).getD i 0
        = scalar * 2 * stds.getD (npArgmax probs) 0 + means.getD (npArgmax probs) 0
      ∧ npArgmax probs < probs.length
      ∧ ∀ j, j < probs.length → probs.getD j 0 ≤ probs.getD (npArgmax probs) 0 := by
  have hi : i < rows.length := List.get?_eq_some.mp hrow |>.1
  refine ⟨?_, npArgmax_lt_length hne, fun j hj => getD_le_getD_npArgmax probs j hj⟩
  unfold MultiModalNumberTransformer.reverse_transform
  rw [List.getD_eq_getElem _ _ (by rw [List.length_map]; exact hi), List.getElem_map]
  have hget : rows[i] = scalar :: probs := by
    have hg := List.getElem?_eq_getElem hi
    rw [List.get?_eq_getElem?, hg] at hrow
    injection hrow
  rw [hget]
  rfl

/-- Witness for C6: rows `[[1/2, 1/4, 3/4]]`, means `[10, 20]`, stds
`[1, 2]`; the argmax of `[1/4, 3/4]` is `1`, so the reconstruction is
`1/2 * 2 * 2 + 20 = 22`. -/
theorem continuous_reverse_formula_witness :
    (MultiModalNumberTransformer.reverse_transform [[1/2, 1/4, 3/4]] [10, 20] [1, 2]).getD 0 0
      = 22 := by
  have h := continuous_reverse_formula [[1/2, 1/4, 3/4]] [10, 20] [1, 2] 0
    (1/2) [1/4, 3/4] rfl (by simp) rfl rfl
  rw [h.1]
  norm_num [npArgmax, npMax]

/-- Modelled from the spec: `model.predict_proba(data)` of the external
sklearn `GaussianMixture` (not part of this repository) returns, per data
value, the posterior responsibility vector over the components: the
non-negative weighted component likelihoods of that value, normalized by
their sum. The weighted likelihoods themselves stay external inputs. -/
def predict_proba_row (likelihoods : List ℚ) : List ℚ :=
  likelihoods.map fun y => y / likelihoods.sum

theorem sum_map_div (l : List ℚ) (s : ℚ) :
    (l.map fun y => y / s).sum = l.sum / s := by
  induction l with
  | nil => simp
  | cons x xs ih => rw [List.map_cons, List.sum_cons, List.sum_cons, ih, add_div]

/-- CLAIM C9: every responsibility row in the `probs` output of
`MultiModalNumberTransformer.transform` has no negative entries and sums to
exactly `1`, whenever the responsibility rows of the external mixture model are
normalized non-negative likelihood vectors (the contract of
`predict_proba`, modelled from the spec; in the exact rational model the
floating tolerance collapses to exact equality). -/
theorem responsibility_rows_normalized (gmm : GmmFit) (data : List ℚ)
    (features : List ℚ) (probs : List (List ℚ)) (means stds : List ℚ)
    (h : MultiModalNumberTransformer.transform gmm data
      = Except.ok (features, probs, means, stds))
    (hrows : ∀ row ∈ probs, ∃ l : List ℚ,
      (∀ y ∈ l, 0 ≤ y) ∧ 0 < l.sum ∧ row = predict_proba_row l) :
    ∀ row ∈ probs, (∀ p ∈ row, 0 ≤ p) ∧ row.sum = 1 := by
  intro row hrow
  rcases hrows row hrow with ⟨l, hnn, hpos, rfl⟩
  constructor
  · intro p hp
    rcases List.mem_map.mp hp with ⟨y, hy, rfl⟩
    exact div_nonneg (hnn y hy) (le_of_lt hpos)
  · unfold predict_proba_row
    rw [sum_map_div]
    exact div_self (ne_of_gt hpos)

/-- Witness for C9: likelihoods `[1, 3]` normalize to `[1/4, 3/4]`, which a
concrete mixture model returns for the single data value `5`; the theorem
yields non-negativity and an exact unit sum for that row. -/
theorem responsibility_rows_normalized_witness :
    (∀ p ∈ predict_proba_row [1, 3], 0 ≤ p) ∧ (predict_proba_row [1, 3]).sum = 1 := by
  have hfit : MultiModalNumberTransformer.transform
      (fun _ => Except.ok ⟨[0], [1], [predict_proba_row [1, 3]]⟩) [5]
      = Except.ok ([MultiModalNumberTransformer.transformRow 5 [0] [1]
          (predict_proba_row [1, 3])], [predict_proba_row [1, 3]], [0], [1]) := rfl
  refine responsibility_rows_normalized _ [5] _ _ [0] [1] hfit ?_
    (predict_proba_row [1, 3]) (by simp)
  intro row hrow
  refine ⟨[1, 3], by norm_num, by norm_num, ?_⟩
  rw [List.mem_singleton.mp hrow]

/-- A raw table cell, carrying the two coercions the source applies to it:
`data[i].values` (numeric view, used for continuous columns) and
`data[i].astype(str).values` (canonical string view, used for categorical
columns). -/
structure Cell where
  num : ℚ
  str : String
deriving DecidableEq

/-- Transformed per-column block stored under key `f%02d % i`: for a
continuous column the matrix `np.concatenate((features, probs), axis=1)`,
for a categorical column the `(n, 1)` integer index array. -/
inductive Block where
  | numeric (rows : List (List ℚ))
  | ints (vals : List Int)
deriving DecidableEq

/-- Per-column metadata entry, the Python dict with a string `type` tag and
the variant-specific fields (absent dict keys become the empty defaults). -/
structure ColumnInfo where
  type : String
  means : List ℚ := []
  stds : List ℚ := []
  mapping : List String := []
  n : Nat := 0
deriving DecidableEq

/-- The `metadata` dict of the `Preprocessor`. -/
structure Metadata where
  num_features : Nat
  details : List ColumnInfo
deriving DecidableEq

/-- State of a `Preprocessor` instance (`src/tgan/data.py:402-410`); the two
transformer attributes are stateless and need no field. -/
structure Preprocessor where
  continuous_columns : List Nat
  metadata : Option Metadata
deriving DecidableEq

/-- Embedding of `Preprocessor.__init__`: a `None` (or omitted)
`continuous_columns` becomes the empty list; `metadata` is stored as
given. -/
def Preprocessor.init (continuous_columns : Option (List Nat))
    (metadata : Option Metadata) : Preprocessor :=
  { continuous_columns := continuous_columns.getD [], metadata := metadata }

/-- Dict access `data[f%02d % i]` on the transformed table, embedded as an
association list keyed by the column index. -/
def lookupKey (data : List (Nat × Block)) (i : Nat) : Option Block :=
  (data.find? fun p => p.1 == i).map fun p => p.2

/-- The row-wise concatenation `np.concatenate((features, probs), axis=1)`
used to store the block of a continuous column. -/
def concatFeatProbs (features : List ℚ) (probs : List (List ℚ)) : List (List ℚ) :=
  List.zipWith (fun f p => f :: p) features probs

/-- Loop body of `Preprocessor.fit_transform` (`src/tgan/data.py:419-439`):
walk the columns in order, dispatching on membership of the index in
`continuous_columns`; the first raised error aborts the whole loop. -/
def fitColumns (gmm : GmmFit) (cc : List Nat) :
    List (List Cell) → Nat → Except String (List (Nat × Block) × List ColumnInfo)
  | [], _ => Except.ok ([], [])
  | col :: rest, i =>
    if i ∈ cc then
      match MultiModalNumberTransformer.transform gmm (col.map Cell.num) with
      | Except.error e => Except.error e
      | Except.ok (features, probs, means, stds) =>
        match fitColumns gmm cc rest (i + 1) with
        | Except.error e => Except.error e
        | Except.ok (td, details) =>
          Except.ok ((i, Block.numeric (concatFeatProbs features probs)) :: td,
            { type := "value", means := means, stds := stds, n := 5 } :: details)
    else
      let r := CategoricalTransformer.transform (col.map Cell.str)
      match fitColumns gmm cc rest (i + 1) with
      | Except.error e => Except.error e
      | Except.ok (td, details) =>
        Except.ok ((i, Block.ints (r.1.map Int.ofNat)) :: td,
          { type := "category", mapping := r.2.1, n := r.2.2 } :: details)

/-- Embedding of `Preprocessor.fit_transform` (`src/tgan/data.py:412-447`).
The pair returned is (raised error or transformed table, the instance
state after the call): the loop works on locals only, and `self.metadata`
is assigned once, after the loop, only when `fitting` is true. -/
def Preprocessor.fit_transform (p : Preprocessor) (gmm : GmmFit)
    (data : List (List Cell)) (fitting : Bool) :
    Except String (List (Nat × Block)) × Preprocessor :=
  match fitColumns gmm p.continuous_columns data 0 with
  | Except.error e => (Except.error e, p)
  | Except.ok (td, details) =>
    (Except.ok td,
      if fitting then
        { p with metadata := some { num_features := data.length, details := details } }
      else p)

/-- Embedding of `Preprocessor.transform` (`src/tgan/data.py:449-450`): the
source collapses it to `self.fit_transform(data, fitting=False)`. -/
def Preprocessor.transform (p : Preprocessor) (gmm : GmmFit)
    (data : List (List Cell)) : Except String (List (Nat × Block)) × Preprocessor :=
  p.fit_transform gmm data false

/-- Embedding of `Preprocessor.fit` (`src/tgan/data.py:452-453`):
`self.fit_transform(data)` run for its state effect, result discarded. -/
def Preprocessor.fit (p : Preprocessor) (gmm : GmmFit)
    (data : List (List Cell)) : Except String Unit × Preprocessor :=
  let r := p.fit_transform gmm data true
  (r.1.map fun _ => (), r.2)

/-- Reconstructed column of `Preprocessor.reverse_transform`. -/
inductive Column where
  | nums (vals : List ℚ)
  | strs (vals : List String)
deriving DecidableEq

/-- Body of one `reverse_transform` loop iteration
(`src/tgan/data.py:463-468`): two independent `if` tests on the type tag;
when neither matches, the Python local `column` keeps whatever the previous
iteration left in it (`none` when there was none). -/
def reverseColumn (info : ColumnInfo) (b : Block) (prev : Option Column) :
    Except String (Option Column) :=
  if info.type = "value" then
    match b with
    | Block.numeric rows =>
      Except.ok (some (Column.nums
        (MultiModalNumberTransformer.reverse_transform rows info.means info.stds)))
    | Block.ints _ => Except.error "ValueError"
  else if info.type = "category" then
    match b with
    | Block.ints vals =>
      match CategoricalTransformer.reverse_transform vals info.mapping with
      | Except.error e => Except.error e
      | Except.ok strs => Except.ok (some (Column.strs strs))
    | Block.numeric _ => Except.error "ValueError"
  else Except.ok prev

/-- Loop of `Preprocessor.reverse_transform` (`src/tgan/data.py:459-470`):
`for i in range(num_features)`, reading the dict entry at key `f%02d % i` (KeyError when
absent) and indexing the details list (IndexError when short), then
`table.append(column)` — an UnboundLocalError when no branch ever assigned
`column`. -/
def reverseLoop (details : List ColumnInfo) (data : List (Nat × Block)) :
    Nat → Nat → Option Column → Except String (List Column)
  | 0, _, _ => Except.ok []
  | fuel + 1, i, prev =>
    match lookupKey data i with
    | none => Except.error "KeyError"
    | some b =>
      match details.get? i with
      | none => Except.error "IndexError"
      | some info =>
        match reverseColumn info b prev with
        | Except.error e => Except.error e
        | Except.ok none => Except.error "UnboundLocalError"
        | Except.ok (some c) =>
          match reverseLoop details data fuel (i + 1) (some c) with
          | Except.error e => Except.error e
          | Except.ok tbl => Except.ok (c :: tbl)

/-- Embedding of `Preprocessor.reverse_transform`
(`src/tgan/data.py:455-472`): subscripting `self.metadata` while it is still
`None` raises a TypeError; otherwise the loop walks the first
`num_features` keys. -/
def Preprocessor.reverse_transform (p : Preprocessor)
    (data : List (Nat × Block)) : Except String (List Column) :=
  match p.metadata with
  | none => Except.error "TypeError"
  | some md => reverseLoop md.details data md.num_features 0 none

/-- CLAIM C5: `Preprocessor.fit` is atomic with respect to metadata: when
fitting any column raises, the instance keeps exactly the metadata it had
before the call; only a fully successful run of the per-column loop
replaces `metadata`, as a unit built from the complete `details` list. -/
theorem fit_metadata_atomic (p : Preprocessor) (gmm : GmmFit)
    (data : List (List Cell)) :
    ((∃ e, (Preprocessor.fit p gmm data).1 = Except.error e) ∧
      (Preprocessor.fit p gmm data).2 = p) ∨
    (∃ td details,
      fitColumns gmm p.continuous_columns data 0 = Except.ok (td, details) ∧
      (Preprocessor.fit p gmm data).1 = Except.ok () ∧
      (Preprocessor.fit p gmm data).2.metadata
        = some { num_features := data.length, details := details }) := by
  unfold Preprocessor.fit Preprocessor.fit_transform
  cases hfc : fitColumns gmm p.continuous_columns data 0 with
  | error e => exact Or.inl ⟨⟨e, rfl⟩, rfl⟩
  | ok r => exact Or.inr ⟨r.1, r.2, rfl, rfl, rfl⟩


/-- Details list produced when every column goes through the categorical
transformer, in column order. -/
def catDetails (data : List (List Cell)) : List ColumnInfo :=
  data.map fun col =>
    let r := CategoricalTransformer.transform (col.map Cell.str)
    { type := "category", mapping := r.2.1, n := r.2.2 }

/-- Transformed table produced when every column goes through the
categorical transformer, keys starting at `i0`. -/
def catBlocks : List (List Cell) → Nat → List (Nat × Block)
  | [], _ => []
  | col :: rest, i0 =>
    (i0, Block.ints ((CategoricalTransformer.transform (col.map Cell.str)).1.map
      Int.ofNat)) :: catBlocks rest (i0 + 1)

theorem fitColumns_nil_cc (gmm : GmmFit) :
    ∀ (data : List (List Cell)) (i : Nat),
      fitColumns gmm [] data i = Except.ok (catBlocks data i, catDetails data) := by
  intro data
  induction data with
  | nil => intro i; rfl
  | cons col rest ih =>
    intro i
    unfold fitColumns
    rw [if_neg (List.not_mem_nil i), ih (i + 1)]
    rfl

/-- CLAIM C10: a `Preprocessor` constructed with `continuous_columns`
omitted (`None`) treats every column as categorical: `fit_transform`
dispatches each column to `CategoricalTransformer.transform` and every
entry of `metadata.details` has type `"category"`. -/
theorem default_all_categorical (metadata0 : Option Metadata) (gmm : GmmFit)
    (data : List (List Cell)) :
    (Preprocessor.fit_transform (Preprocessor.init none metadata0) gmm data true).1
        = Except.ok (catBlocks data 0) ∧
    (Preprocessor.fit_transform (Preprocessor.init none metadata0) gmm data true).2.metadata
        = some { num_features := data.length, details := catDetails data } ∧
    ∀ info ∈ catDetails data, info.type = "category" := by
  refine ⟨?_, ?_, ?_⟩
  · unfold Preprocessor.fit_transform
    rw [show (Preprocessor.init none metadata0).continuous_columns = [] from rfl,
      fitColumns_nil_cc gmm data 0]
  · unfold Preprocessor.fit_transform
    rw [show (Preprocessor.init none metadata0).continuous_columns = [] from rfl,
      fitColumns_nil_cc gmm data 0]
    rfl
  · intro info hinfo
    rcases List.mem_map.mp hinfo with ⟨col, _, rfl⟩
    rfl

/-- A mixture-fit collaborator for runs that never reach a continuous
column (every concrete table below is purely categorical). -/
def gmmUnused : GmmFit := fun _ => Except.error "unused"

/-- COUNTEREXAMPLE to C2: fit on the single categorical column `["b"]`
stores the mapping `["b"]`; on the same-schema new column `["a"]`, a
`transform` that reused the stored mapping could not encode `"a"` as a
valid index of `["b"]`, yet the source re-fits the vocabulary on the new
data and outputs index `0` — which the stored metadata decodes back to
`"b" ≠ "a"`. -/
theorem transform_refits_counterexample :
    (Preprocessor.fit (Preprocessor.init none none) gmmUnused
        [[⟨0, "b"⟩]]).2.metadata
      = some { num_features := 1
               details := [{ type := "category", mapping := ["b"], n := 1 }] } ∧
    ((Preprocessor.fit (Preprocessor.init none none) gmmUnused
        [[⟨0, "b"⟩]]).2.transform gmmUnused [[⟨0, "a"⟩]]).1
      = Except.ok [(0, Block.ints [0])] ∧
    (Preprocessor.fit (Preprocessor.init none none) gmmUnused
        [[⟨0, "b"⟩]]).2.reverse_transform [(0, Block.ints [0])]
      = Except.ok [Column.strs ["b"]] ∧
    Column.strs ["b"] ≠ Column.strs ["a"] :=
  ⟨rfl, rfl, rfl, by decide⟩

/-- CLAIM C2 as amended: `Preprocessor.transform` is `fit_transform` with
`fitting=False`: it leaves the instance (hence `self.metadata`) unchanged,
but it re-fits the transform of every column on the new data — its output never
consults the stored metadata. -/
theorem transform_refits_amended (p : Preprocessor) (gmm : GmmFit)
    (data : List (List Cell)) :
    (Preprocessor.transform p gmm data).2 = p ∧
    ∀ md0 : Option Metadata,
      (Preprocessor.transform { p with metadata := md0 } gmm data).1
        = (Preprocessor.transform p gmm data).1 := by
  constructor
  · unfold Preprocessor.transform Preprocessor.fit_transform
    cases fitColumns gmm p.continuous_columns data 0 <;> rfl
  · intro md0
    unfold Preprocessor.transform Preprocessor.fit_transform
    cases hfc : fitColumns gmm p.continuous_columns data 0 <;>
      simp only [hfc]

/-- COUNTEREXAMPLE to C8: on a fresh instance with no metadata,
`transform` does not raise a state error — it silently succeeds, re-fitting
on the given table. -/
theorem state_error_counterexample :
    (Preprocessor.transform (Preprocessor.init none none) gmmUnused
        [[⟨0, "a"⟩]]).1 = Except.ok [(0, Block.ints [0])] := rfl

/-- CLAIM C8 as amended: in the Unfit state (no metadata),
`reverse_transform` does raise (subscripting the `None` metadata), but
`transform` performs no state check at all: it behaves exactly as
`fit_transform` with `fitting=False` and can silently succeed. -/
theorem state_error_amended (p : Preprocessor) (hmd : p.metadata = none)
    (data : List (Nat × Block)) (gmm : GmmFit) (raw : List (List Cell)) :
    Preprocessor.reverse_transform p data = Except.error "TypeError" ∧
    Preprocessor.transform p gmm raw = Preprocessor.fit_transform p gmm raw false := by
  refine ⟨?_, rfl⟩
  unfold Preprocessor.reverse_transform
  rw [hmd]

/-- Witness for the amended C8 at a concrete unfit instance. -/
theorem state_error_amended_witness :
    Preprocessor.reverse_transform (Preprocessor.init none none) []
        = Except.error "TypeError" ∧
    Preprocessor.transform (Preprocessor.init none none) gmmUnused []
        = Preprocessor.fit_transform (Preprocessor.init none none) gmmUnused [] false :=
  state_error_amended (Preprocessor.init none none) rfl [] gmmUnused []

/-- Fitted instance with a single categorical column, used for the schema
claims: metadata injected directly, as the source constructor allows. -/
def pOneCat : Preprocessor :=
  Preprocessor.init none (some { num_features := 1
                                 details := [{ type := "category", mapping := ["a"], n := 1 }] })

/-- COUNTEREXAMPLE to C3: `pOneCat.metadata.num_features = 1`, yet
`reverse_transform` on a table holding two columns raises no schema error:
it decodes column `f00` and silently ignores the extra column `f01`. -/
theorem schema_mismatch_counterexample :
    Preprocessor.reverse_transform pOneCat
        [(0, Block.ints [0]), (1, Block.ints [0])]
      = Except.ok [Column.strs ["a"]] := rfl

theorem reverseLoop_congr (details : List ColumnInfo)
    (data data' : List (Nat × Block)) :
    ∀ (fuel i : Nat) (prev : Option Column),
      (∀ j, i ≤ j → j < i + fuel → lookupKey data j = lookupKey data' j) →
      reverseLoop details data fuel i prev = reverseLoop details data' fuel i prev := by
  intro fuel
  induction fuel with
  | zero => intro i prev _; rfl
  | succ n ih =>
    intro i prev h
    unfold reverseLoop
    rw [h i (le_refl i) (by omega)]
    cases hb : lookupKey data' i with
    | none => rfl
    | some b =>
      simp only
      cases hi2 : details.get? i with
      | none => rfl
      | some info =>
        simp only
        cases hc : reverseColumn info b prev with
        | error e => rfl
        | ok oc =>
          cases oc with
          | none => rfl
          | some c =>
            simp only
            rw [ih (i + 1) (some c) fun j hj1 hj2 => h j (by omega) (by omega)]

/-- CLAIM C3 as amended: neither entry point compares the column count of the input to `metadata.num_features`.  `reverse_transform` consults only the
keys `f00 .. f(num_features-1)`: its result is unchanged under any change
to the input beyond those keys, so extra columns are silently ignored
(`transform`, per the amended C2, ignores the stored metadata entirely). -/
theorem schema_not_checked_amended (p : Preprocessor) (md : Metadata)
    (hmd : p.metadata = some md) (data data' : List (Nat × Block))
    (h : ∀ j, j < md.num_features → lookupKey data j = lookupKey data' j) :
    Preprocessor.reverse_transform p data = Preprocessor.reverse_transform p data' := by
  unfold Preprocessor.reverse_transform
  rw [hmd]
  exact reverseLoop_congr md.details data data' md.num_features 0 none
    fun j _ hj2 => h j (by omega)

/-- Witness for the amended C3: dropping the extra column `f01` does not
change the reconstruction. -/
theorem schema_not_checked_amended_witness :
    Preprocessor.reverse_transform pOneCat [(0, Block.ints [0])]
      = Preprocessor.reverse_transform pOneCat
          [(0, Block.ints [0]), (1, Block.ints [0])] :=
  schema_not_checked_amended pOneCat _ rfl _ _ fun j hj => by
    have hj1 : j < 1 := hj
    have hj0 : j = 0 := by omega
    subst hj0
    rfl

/-- Metadata carrying an unsupported type tag in its second column, the
failing input for C4. -/
def pTwoTags : Preprocessor :=
  Preprocessor.init none (some { num_features := 2
                                 details := [{ type := "category", mapping := ["a"], n := 1 },
                                             { type := "weird" }] })

/-- CLAIM C4, evaluated at the failing input (the claim is right, the code
is wrong): a descriptor tag that is neither `"value"` nor `"category"`
does not raise in `Preprocessor.reverse_transform` — both `if` tests fall
through and the Python loop-local `column` still holds the output of the previous
column, so the decoded column `f00` is silently appended twice. -/
theorem unsupported_tag_leaks_previous_column :
    Preprocessor.reverse_transform pTwoTags
        [(0, Block.ints [0]), (1, Block.ints [0])]
      = Except.ok [Column.strs ["a"], Column.strs ["a"]] := rfl
